import Mathlib

/-!
# Verification of the fitNixTrackBackend attendance-sync core

Shallow embedding of the biometric-device attendance reconciliation pipeline
of the fitNixTrackBackend repository:

* the device transport client (src/services/zktService.ts, class ZKTService),
* the offline sync endpoint (src/routes/device.ts, POST /:id/sync-attendance-offline),
* the incremental device sync (src/routes/device.ts, GET /:id/attendance-logs),
* the incomplete-session closer (src/services/zktService.ts,
  autoCheckoutIncompleteRecords).

Timestamps are modelled as integers (milliseconds since the epoch); the
calendar-date computations of the source (getUTCFullYear/getUTCMonth/getUTCDate
triples) are modelled as the floor division of an instant by the number of
milliseconds in a day, which identifies instants exactly when they fall on the
same UTC calendar day.  The server timezone is fixed to UTC, so the local-date
grouping keys of the handlers coincide with UTC days.  The hour added by
setHours(getHours() + 1) is 3600000 milliseconds.  The database is a list of
rows plus an auto-increment counter; Prisma primary keys are unique, which
theorems assume through the DB.WF predicate.
-/

/-- An instant: milliseconds since the Unix epoch. -/
abbrev Time := Int

/-- Milliseconds in one hour, the fallback session length. -/
def hourMs : Int := 3600000

/-- Milliseconds in one UTC day. -/
def dayMs : Int := 86400000

/-- UTC calendar day of an instant (floor division, as the
getUTCFullYear/getUTCMonth/getUTCDate triple comparison of the source). -/
def utcDay (t : Time) : Int := t.fdiv dayMs

/-- Local calendar day used as grouping key by both handlers
(getFullYear/getMonth/getDate); the model fixes the server timezone to UTC. -/
def localDay (t : Time) : Int := t.fdiv dayMs

/-! ## Device transport client (src/services/zktService.ts) -/

/-- The shapes a node-zklib response can take, as distinguished by the source:
null or undefined; a plain array; an object carrying a data field (whose value
may or may not be an array); an object carrying a users array; anything else. -/
inductive ZkResult (α : Type) where
  | nullish : ZkResult α
  | plainArray (xs : List α) : ZkResult α
  | objWithData (arr : Option (List α)) : ZkResult α
  | objWithUsers (arr : Option (List α)) : ZkResult α
  | objOther : ZkResult α
deriving DecidableEq, Repr

/-- Envelope normalization of ZKTService.getAttendanceLogs
(src/services/zktService.ts lines 554-576): unwrap a data field when it is an
array, pass a plain array through, and return an empty list otherwise. -/
def normalizeAttendanceResult : ZkResult α → List α
  | .nullish => []
  | .objWithData (some xs) => xs
  | .objWithData none => []
  | .plainArray xs => xs
  | .objWithUsers _ => []
  | .objOther => []

/-- Envelope normalization of ZKTService.getUsers
(src/services/zktService.ts lines 591-624): like the log fetch but with a
third accepted shape, an object carrying a users array; every unmatched shape
falls through to an empty list. -/
def normalizeUsersResult : ZkResult α → List α
  | .nullish => []
  | .objWithData (some xs) => xs
  | .objWithData none => []
  | .plainArray xs => xs
  | .objWithUsers (some xs) => xs
  | .objWithUsers none => []
  | .objOther => []

/-- The connection state of a ZKTService instance: the device field is the
handle stored by connect and cleared by disconnect. -/
structure ZKTService where
  device : Option Nat
deriving DecidableEq, Repr

/-- The error message thrown by every operation invoked without a connection. -/
def notConnectedMsg : String := "Device not connected. Call connect() first."

/-- ZKTService.getAttendanceLogs: guard on the connection handle, make one call
to the device (its outcome is the attempt argument), re-throw a rejection, and
normalize the envelope of a fulfilled response. -/
def ZKTService.getAttendanceLogs (s : ZKTService) (attempt : Except String (ZkResult α)) :
    Except String (List α) :=
  match s.device with
  | none => .error notConnectedMsg
  | some _ =>
    match attempt with
    | .error e => .error e
    | .ok r => .ok (normalizeAttendanceResult r)

/-- ZKTService.getUsers: same guard and re-throw, users-envelope normalization. -/
def ZKTService.getUsers (s : ZKTService) (attempt : Except String (ZkResult α)) :
    Except String (List α) :=
  match s.device with
  | none => .error notConnectedMsg
  | some _ =>
    match attempt with
    | .error e => .error e
    | .ok r => .ok (normalizeUsersResult r)

/-- ZKTService.getSerialNumber: guard, then return the device serial (null on a
device error, which the source swallows). -/
def ZKTService.getSerialNumber (s : ZKTService) (serial : Option String) :
    Except String (Option String) :=
  match s.device with
  | none => .error notConnectedMsg
  | some _ => .ok serial

/-- ZKTService.getDeviceTime: guard, then return the device clock. -/
def ZKTService.getDeviceTime (s : ZKTService) (t : Option Time) :
    Except String (Option Time) :=
  match s.device with
  | none => .error notConnectedMsg
  | some _ => .ok t

/-- ZKTService.setDeviceTime: guard, then report whether the device accepted. -/
def ZKTService.setDeviceTime (s : ZKTService) (accepted : Bool) :
    Except String Bool :=
  match s.device with
  | none => .error notConnectedMsg
  | some _ => .ok accepted

/-- ZKTService.clearAttendanceLogs: guard, then report whether the device
accepted. -/
def ZKTService.clearAttendanceLogs (s : ZKTService) (accepted : Bool) :
    Except String Bool :=
  match s.device with
  | none => .error notConnectedMsg
  | some _ => .ok accepted

/-- ZKTService.disconnect: whether or not a handle is held, afterwards the
device field is null (the source clears it in a finally block). -/
def ZKTService.disconnect (_ : ZKTService) : ZKTService := ⟨none⟩

/-- The attendance-log fetch as performed by the route handler
(src/routes/device.ts line 583): the call site passes the literal 3 as an
ostensible retry budget, but the method signature declares no parameter, so the
argument is discarded and exactly one device call is made.  The schedule maps
the attempt index to what the device would return on that attempt; the result
pairs the outcome with the number of device calls performed. -/
def fetchLogsAtRoute (retries : Nat) (s : ZKTService)
    (schedule : Nat → Except String (ZkResult α)) :
    Except String (List α) × Nat :=
  let _ := retries
  (s.getAttendanceLogs (schedule 0), if s.device.isSome then 1 else 0)

/-! ## Statement bundles for the transport claims -/

/-- All device operations fail with the not-connected message when the device
handle is absent, and disconnect always clears the handle. -/
def NotConnectedSpec (s : ZKTService) : Prop :=
  (∀ (a : Except String (ZkResult Nat)), s.getAttendanceLogs a = .error notConnectedMsg) ∧
  (∀ (a : Except String (ZkResult Nat)), s.getUsers a = .error notConnectedMsg) ∧
  (∀ serial, s.getSerialNumber serial = .error notConnectedMsg) ∧
  (∀ t, s.getDeviceTime t = .error notConnectedMsg) ∧
  (∀ b, s.setDeviceTime b = .error notConnectedMsg) ∧
  (∀ b, s.clearAttendanceLogs b = .error notConnectedMsg) ∧
  (∀ (s' : ZKTService), (ZKTService.disconnect s').device = none)

/-! ## Data model -/

/-- One raw device log entry, with the heterogeneous field set the handlers
probe: five candidate user-id fields, an ISO recordTime or an epoch-seconds
timestamp, and the optional type and state event-kind fields.  Field values
are pre-stringified where the source calls toString. -/
structure DeviceLog where
  deviceUserId : Option String := none
  id : Option String := none
  uid : Option String := none
  userId : Option String := none
  userSn : Option String := none
  recordTime : Option Time := none
  timestamp : Option Int := none
  type : Option Int := none
  state : Option Int := none
deriving DecidableEq, Repr

/-- Timestamp resolution shared by both handlers: prefer recordTime, else
timestamp (epoch seconds, scaled to milliseconds), else skip. -/
def resolveTime (l : DeviceLog) : Option Time :=
  match l.recordTime with
  | some t => some t
  | none => l.timestamp.map (· * 1000)

/-- User-id resolution of the attendance-logs handler
(src/routes/device.ts lines 730-743): deviceUserId, id, uid, userId, userSn. -/
def resolveUserId (l : DeviceLog) : Option String :=
  l.deviceUserId <|> l.id <|> l.uid <|> l.userId <|> l.userSn

/-- User-id resolution of the offline sync handler
(src/routes/device.ts lines 144-151): only deviceUserId, id, uid. -/
def resolveUserIdOffline (l : DeviceLog) : Option String :=
  l.deviceUserId <|> l.id <|> l.uid

/-- Device-user-to-member lookup over the active mappings of the device. -/
def lookupMember (mappings : List (String × Int)) (k : String) : Option Int :=
  (mappings.find? (fun m => m.1 == k)).map (·.2)

/-- One persisted AttendanceRecord row.  The date column stores a UTC midnight
and is modelled as the day number; status is the literal string the source
writes. -/
structure AttendanceRecord where
  id : Nat
  gymId : Int
  memberId : Int
  date : Int
  status : String
  checkInTime : Option Time
  checkOutTime : Option Time
  deviceUserId : Option String
  deviceSerialNumber : Option String
deriving DecidableEq, Repr

/-- The AttendanceRecord table: rows plus the auto-increment counter. -/
structure DB where
  rows : List AttendanceRecord
  nextId : Nat
deriving DecidableEq, Repr

/-- Well-formedness the real database guarantees: primary keys are below the
auto-increment counter and pairwise distinct. -/
def DB.WF (db : DB) : Prop :=
  (∀ r ∈ db.rows, r.id < db.nextId) ∧ (db.rows.map AttendanceRecord.id).Nodup

instance (db : DB) : Decidable db.WF := by
  unfold DB.WF; infer_instance

/-- Least element of a list of instants (Math.min over the mapped getTime
values; none on an empty list). -/
def listMin (l : List Time) : Option Time :=
  l.foldl (fun acc t =>
    match acc with
    | none => some t
    | some m => some (min m t)) none

/-- Greatest element of a list of instants (Math.max; none on an empty list). -/
def listMax (l : List Time) : Option Time :=
  l.foldl (fun acc t =>
    match acc with
    | none => some t
    | some m => some (max m t)) none

/-! ## Incremental device sync (GET /:id/attendance-logs) -/

/-- One member-day group accumulated by the attendance-logs handler: the
grouping key, the classified punch lists in push order, and the device user id
of the first punch. -/
structure SyncGroup where
  memberId : Int
  day : Int
  checkIns : List Time
  checkOuts : List Time
  deviceUserId : String
deriving DecidableEq, Repr

/-- Streaming classification of a punch with no type and no state field
(src/routes/device.ts lines 798-812), reading the group state accumulated so
far: with no classified punch or no check-in yet the punch is a check-in; with
check-ins but no check-out it is a check-in exactly when not later than the
first pushed check-in; with both it is a check-in exactly when strictly
earlier than the first pushed check-in. -/
def streamingClassify (checkIns checkOuts : List Time) (t : Time) : Bool :=
  match checkIns.head? with
  | none => true
  | some c => if checkOuts.isEmpty then decide (t ≤ c) else decide (t < c)

/-- Append a punch to its member-day group (creating the group at the end of
the insertion-ordered map when absent), classifying it by the explicit kind
when one was carried and by streamingClassify otherwise. -/
def addToGroups (groups : List SyncGroup) (memberId : Int) (day : Int)
    (duid : String) (explicitKind : Option Bool) (t : Time) : List SyncGroup :=
  match groups with
  | [] =>
    let isCI := match explicitKind with
      | some b => b
      | none => true
    if isCI then [⟨memberId, day, [t], [], duid⟩] else [⟨memberId, day, [], [t], duid⟩]
  | g :: gs =>
    if g.memberId = memberId ∧ g.day = day then
      let isCI := match explicitKind with
        | some b => b
        | none => streamingClassify g.checkIns g.checkOuts t
      if isCI then { g with checkIns := g.checkIns ++ [t] } :: gs
      else { g with checkOuts := g.checkOuts ++ [t] } :: gs
    else g :: addToGroups gs memberId day duid explicitKind t

/-- Per-log step of the attendance-logs handler (src/routes/device.ts lines
695-819): resolve the timestamp, apply the incremental-sync start filter
(skip when not strictly after the last sync) and the end filter, resolve and
map the user id, compute the explicit kind, and push into the group map. -/
def processLogGET (mappings : List (String × Int)) (start? end? : Option Time)
    (groups : List SyncGroup) (l : DeviceLog) : List SyncGroup :=
  match resolveTime l with
  | none => groups
  | some t =>
    if (match start? with | some s => decide (t ≤ s) | none => false) then groups
    else if (match end? with | some e => decide (e < t) | none => false) then groups
    else
      match resolveUserId l with
      | none => groups
      | some duid =>
        match lookupMember mappings duid with
        | none => groups
        | some memberId =>
          let explicitKind : Option Bool :=
            if l.type.isSome || l.state.isSome then
              some (l.type == some 0 || (l.type == none && l.state == some 0))
            else none
          addToGroups groups memberId (localDay t) duid explicitKind t

/-- A record of this member whose non-null check-in (or, failing that,
check-out) falls on the target UTC day while its stored date column differs:
the mismatch condition of the repair scan (src/routes/device.ts lines
878-922). -/
def isMismatch (gym memberId targetDay : Int) (r : AttendanceRecord) : Bool :=
  r.gymId == gym && r.memberId == memberId &&
    (match r.checkInTime <|> r.checkOutTime with
     | some t => utcDay t == targetDay && r.date != targetDay
     | none => false)

/-- Mismatch repair: delete every record satisfying isMismatch. -/
def repairMismatches (gym memberId targetDay : Int)
    (rows : List AttendanceRecord) : List AttendanceRecord :=
  rows.filter (fun r => !(isMismatch gym memberId targetDay r))

/-- The update document built for an existing record (src/routes/device.ts
lines 989-1017): the new check-in replaces the stored one only when the stored
one is null or the new one is strictly earlier, dually for the check-out; the
row is written (tagging device id, serial and PRESENT status) only when one of
the bounds changed. -/
def mergeBounds (r : AttendanceRecord) (eci lco : Option Time)
    (duid : String) (serial : Option String) : AttendanceRecord × Bool :=
  let ciStep : Option Time × Bool :=
    match eci with
    | some e =>
      match r.checkInTime with
      | none => (some e, true)
      | some c => if e < c then (some e, true) else (some c, false)
    | none => (r.checkInTime, false)
  let coStep : Option Time × Bool :=
    match lco with
    | some e =>
      match r.checkOutTime with
      | none => (some e, true)
      | some c => if c < e then (some e, true) else (some c, false)
    | none => (r.checkOutTime, false)
  let wasUpdated := ciStep.2 || coStep.2
  (if wasUpdated then
    { r with checkInTime := ciStep.1, checkOutTime := coStep.1,
             deviceUserId := some duid, deviceSerialNumber := serial,
             status := "PRESENT" }
   else r, wasUpdated)

/-- The running result of one sync: the database plus the created, updated and
deleted counters of the response summary. -/
structure SyncOut where
  db : DB
  created : Nat
  updated : Nat
  deleted : Nat
deriving DecidableEq, Repr

/-- Target UTC day of a group: the day of the earliest check-in, or of the
latest check-out when no check-in exists (src/routes/device.ts lines
842-862). -/
def targetDay (g : SyncGroup) : Option Int :=
  (listMin g.checkIns <|> listMax g.checkOuts).map utcDay

/-- Reconciliation of one finalized group (src/routes/device.ts lines
831-1028): skip empty groups, compute earliest check-in and latest check-out,
fix the record date to the UTC day of the check-in (or check-out), delete
mismatched stale records of the member, then create the record with the raw
bounds or extend an existing one through mergeBounds. -/
def writeGroup (gym : Int) (serial : Option String) (acc : SyncOut)
    (g : SyncGroup) : SyncOut :=
  if g.checkIns.isEmpty && g.checkOuts.isEmpty then acc
  else
    let eci := listMin g.checkIns
    let lco := listMax g.checkOuts
    match eci <|> lco with
    | none => acc
    | some attendanceDate =>
      let d := utcDay attendanceDate
      let repaired := repairMismatches gym g.memberId d acc.db.rows
      let delCount := (acc.db.rows.filter (isMismatch gym g.memberId d)).length
      match repaired.find? (fun r => r.gymId == gym && r.memberId == g.memberId && r.date == d) with
      | none =>
        let newRec : AttendanceRecord :=
          ⟨acc.db.nextId, gym, g.memberId, d, "PRESENT", eci, lco,
           some g.deviceUserId, serial⟩
        { db := ⟨repaired ++ [newRec], acc.db.nextId + 1⟩,
          created := acc.created + 1, updated := acc.updated,
          deleted := acc.deleted + delCount }
      | some r0 =>
        let merged := mergeBounds r0 eci lco g.deviceUserId serial
        if merged.2 then
          { db := ⟨repaired.map (fun x => if x.id = r0.id then merged.1 else x),
                   acc.db.nextId⟩,
            created := acc.created, updated := acc.updated + 1,
            deleted := acc.deleted + delCount }
        else
          { db := ⟨repaired, acc.db.nextId⟩,
            created := acc.created, updated := acc.updated,
            deleted := acc.deleted + delCount }

/-- The attendance-logs sync run: group the fetched logs, then reconcile each
group.  In incremental mode the start bound is the device lastSyncAt. -/
def runSyncGET (logs : List DeviceLog) (mappings : List (String × Int))
    (start? end? : Option Time) (gym : Int) (serial : Option String)
    (db : DB) : SyncOut :=
  let groups := logs.foldl (processLogGET mappings start? end?) []
  groups.foldl (writeGroup gym serial) ⟨db, 0, 0, 0⟩

/-! ## Offline sync endpoint (POST /:id/sync-attendance-offline) -/

/-- One parsed log of the offline handler (src/routes/device.ts lines
132-188): resolved user id, mapped member, grouping day, instant, and the
explicit kind (none when the entry carries neither type nor state). -/
structure ProcessedLog where
  deviceUserId : String
  memberId : Int
  day : Int
  logDate : Time
  isCheckIn : Option Bool
deriving DecidableEq, Repr

/-- Per-log parsing of the offline handler: resolve the user id over its three
candidate fields, the timestamp, the member mapping, the grouping day and the
explicit kind (type first, else state; 0 means check-in). -/
def offlineProcessLog (mappings : List (String × Int)) (l : DeviceLog) :
    Option ProcessedLog :=
  match resolveUserIdOffline l with
  | none => none
  | some duid =>
    match resolveTime l with
    | none => none
    | some t =>
      match lookupMember mappings duid with
      | none => none
      | some memberId =>
        let isCheckIn : Option Bool :=
          match l.type with
          | some ty => some (ty == 0)
          | none =>
            match l.state with
            | some st => some (st == 0)
            | none => none
        some ⟨duid, memberId, localDay t, t, isCheckIn⟩

/-- Append an entry to the insertion-ordered member-day group map. -/
def addAssoc (groups : List ((Int × Int) × List ProcessedLog))
    (k : Int × Int) (l : ProcessedLog) : List ((Int × Int) × List ProcessedLog) :=
  match groups with
  | [] => [(k, [l])]
  | (k', ls) :: rest =>
    if k' = k then (k', ls ++ [l]) :: rest
    else (k', ls) :: addAssoc rest k l

/-- Group parsed logs by member and day, preserving encounter order. -/
def groupOffline (ls : List ProcessedLog) : List ((Int × Int) × List ProcessedLog) :=
  ls.foldl (fun gs l => addAssoc gs (l.memberId, l.day) l) []

/-- Unknown-kind resolution loop of the offline handler (src/routes/device.ts
lines 212-273).  The explicitly classified punches seed the two lists in group
order; each unknown punch is then folded in: strictly before the first pushed
check-in makes a check-in, strictly after the last pushed check-out makes a
check-out, with both boundaries present the nearer one wins, with only
check-ins it is a check-out exactly when strictly after the last pushed
check-in, with only check-outs a check-in exactly when strictly before the
least check-out, and with nothing classified the chronologically first punch
of the group is a check-in, the chronologically last (of a group of at least
two) a check-out, and anything else a check-in. -/
def offlineClassify (groupLogs : List ProcessedLog) : List Time × List Time :=
  let cis0 := groupLogs.filterMap (fun l => if l.isCheckIn = some true then some l.logDate else none)
  let cos0 := groupLogs.filterMap (fun l => if l.isCheckIn = some false then some l.logDate else none)
  let unknowns := groupLogs.filterMap (fun l => if l.isCheckIn = none then some l.logDate else none)
  let times := groupLogs.map (·.logDate)
  let minT := listMin times
  let maxT := listMax times
  let n := groupLogs.length
  unknowns.foldl (fun acc t =>
    let cis := acc.1
    let cos := acc.2
    match cis.head? with
    | some c =>
      if t < c then (cis ++ [t], cos)
      else
        match cos.getLast? with
        | some o =>
          if o < t then (cis, cos ++ [t])
          else if (t - c).natAbs < (t - o).natAbs then (cis ++ [t], cos)
          else (cis, cos ++ [t])
        | none =>
          match cis.getLast? with
          | some lc => if lc < t then (cis, cos ++ [t]) else (cis ++ [t], cos)
          | none => (cis ++ [t], cos)
    | none =>
      match cos.getLast? with
      | some o =>
        if o < t then (cis, cos ++ [t])
        else
          match listMin cos with
          | some eo => if t < eo then (cis ++ [t], cos) else (cis, cos ++ [t])
          | none => (cis, cos ++ [t])
      | none =>
        if minT = some t then (cis ++ [t], cos)
        else if maxT = some t ∧ n > 1 then (cis, cos ++ [t])
        else (cis ++ [t], cos))
    (cis0, cos0)

/-- Session bounds of one offline group: earliest classified check-in and
latest classified check-out (the source sorts both lists and takes the first
and the last element). -/
def offlineGroupBounds (groupLogs : List ProcessedLog) : Option Time × Option Time :=
  let c := offlineClassify groupLogs
  (listMin c.1, listMax c.2)

/-- Bound synthesis of the offline handler (src/routes/device.ts lines
275-305): a lone check-in gets a check-out one hour later, a lone check-out a
check-in one hour earlier, an empty pair is an error, and a pair with
check-out not strictly after check-in has its check-out forced to check-in
plus one hour. -/
def finalizeBounds (ci? co? : Option Time) : Option (Time × Time) :=
  match ci?, co? with
  | some ci, none => some (ci, ci + hourMs)
  | none, some co => some (co - hourMs, co)
  | none, none => none
  | some ci, some co => if co ≤ ci then some (ci, ci + hourMs) else some (ci, co)

/-- Reconciliation of one offline group (src/routes/device.ts lines 203-344):
classify, finalize, then upsert under the grouping day; an existing record has
its bounds, device tag and status overwritten with the finalized session, a
missing one is created from it. -/
def offlineWriteGroup (gym : Int) (serial : Option String)
    (acc : DB × Nat × Nat) (g : (Int × Int) × List ProcessedLog) : DB × Nat × Nat :=
  match g.2.head? with
  | none => acc
  | some firstLog =>
    let db := acc.1
    let memberId := firstLog.memberId
    let day := firstLog.day
    let duid := firstLog.deviceUserId
    let bounds := offlineGroupBounds g.2
    match finalizeBounds bounds.1 bounds.2 with
    | none => (db, acc.2.1, acc.2.2 + 1)
    | some (ci, co) =>
      match db.rows.find? (fun r => r.gymId == gym && r.memberId == memberId && r.date == day) with
      | some r0 =>
        ({ db with rows := db.rows.map (fun x =>
             if x.id = r0.id then
               { x with deviceUserId := some duid, deviceSerialNumber := serial,
                        status := "PRESENT", checkInTime := some ci,
                        checkOutTime := some co }
             else x) }, acc.2.1 + 1, acc.2.2)
      | none =>
        (⟨db.rows ++ [⟨db.nextId, gym, memberId, day, "PRESENT", some ci, some co,
                       some duid, serial⟩], db.nextId + 1⟩, acc.2.1 + 1, acc.2.2)

/-- The offline sync run: parse, group, then reconcile each group; the result
carries the database and the synced and error counters. -/
def runOfflineSync (logs : List DeviceLog) (mappings : List (String × Int))
    (gym : Int) (serial : Option String) (db : DB) : DB × Nat × Nat :=
  let processed := logs.filterMap (offlineProcessLog mappings)
  (groupOffline processed).foldl (offlineWriteGroup gym serial) (db, 0, 0)

/-! ## Incomplete-session closer (autoCheckoutIncompleteRecords) -/

/-- The findMany condition of the closer (src/services/zktService.ts lines
922-929): this gym, non-null check-in, null check-out, date strictly before
today. -/
def closeCond (today gym : Int) (r : AttendanceRecord) : Bool :=
  r.gymId == gym && r.checkInTime.isSome && r.checkOutTime == none && r.date < today

/-- Update a single row by primary key, setting its check-out column. -/
def updateCheckOutById (rows : List AttendanceRecord) (i : Nat) (d : Option Time) :
    List AttendanceRecord :=
  rows.map (fun x => if x.id = i then { x with checkOutTime := d } else x)

/-- autoCheckoutIncompleteRecords (src/services/zktService.ts lines 913-961):
fetch the incomplete records of the gym, then for each, set its check-out to
one hour after its check-in; returns the new table and the count of closed
records. -/
def autoCheckoutIncompleteRecords (today gym : Int) (db : DB) : DB × Nat :=
  let incomplete := db.rows.filter (closeCond today gym)
  let rows' := incomplete.foldl (fun rows r =>
    match r.checkInTime with
    | some c => updateCheckOutById rows r.id (some (c + hourMs))
    | none => rows) db.rows
  ({ db with rows := rows' }, (incomplete.filter (·.checkInTime.isSome)).length)

/-- Pointwise effect of the closer on one row: exactly the rows meeting
closeCond get check-out set to check-in plus one hour, every other row is
untouched. -/
def closeRecord (today gym : Int) (r : AttendanceRecord) : AttendanceRecord :=
  if closeCond today gym r then
    match r.checkInTime with
    | some c => { r with checkOutTime := some (c + hourMs) }
    | none => r
  else r

/-! ## Claim theorems: transport client -/

/-- C9: every ZKTService device operation invoked without a prior successful
connect fails with the not-connected error instead of calling the device, and
disconnect resets the handle so the precondition applies again. -/
theorem not_connected_guard (s : ZKTService) (h : s.device = none) :
    NotConnectedSpec s := by
  refine ⟨?_, ?_, ?_, ?_, ?_, ?_, fun s' => rfl⟩ <;>
    intro a <;>
    simp [ZKTService.getAttendanceLogs, ZKTService.getUsers,
          ZKTService.getSerialNumber, ZKTService.getDeviceTime,
          ZKTService.setDeviceTime, ZKTService.clearAttendanceLogs, h]

/-- Witness for C9: a freshly disconnected service satisfies the guard
specification. -/
theorem not_connected_guard_witness :
    (⟨none⟩ : ZKTService).device = none ∧ NotConnectedSpec ⟨none⟩ :=
  ⟨rfl, not_connected_guard ⟨none⟩ rfl⟩

/-- C8 counterexample: a response matching none of the three envelope shapes is
answered with an empty ok list, not with an error, and the log fetch does not
unwrap the users envelope either — refuting the claimed
UnexpectedDeviceResponseFormat failure. -/
theorem unmatched_envelope_yields_empty_not_error :
    ZKTService.getUsers ⟨some 0⟩ (.ok (.objOther : ZkResult Nat)) = .ok [] ∧
    (∀ msg, ZKTService.getUsers ⟨some 0⟩ (.ok (.objOther : ZkResult Nat)) ≠ .error msg) ∧
    ZKTService.getAttendanceLogs ⟨some 0⟩ (.ok (.objWithUsers (some [5]) : ZkResult Nat)) = .ok [] := by
  refine ⟨rfl, ?_, rfl⟩
  intro msg hmsg
  simp [ZKTService.getUsers, normalizeUsersResult] at hmsg

/-- C8 amended: on a connected service, getUsers normalizes all three envelope
shapes into a plain list; getAttendanceLogs normalizes the plain array and the
data envelope; every remaining shape (including the users envelope on the log
fetch) yields an empty list rather than an error. -/
theorem envelope_normalization_on_code :
    ∀ (xs : List Nat),
      ZKTService.getUsers ⟨some 0⟩ (.ok (.plainArray xs)) = .ok xs ∧
      ZKTService.getUsers ⟨some 0⟩ (.ok (.objWithData (some xs))) = .ok xs ∧
      ZKTService.getUsers ⟨some 0⟩ (.ok (.objWithUsers (some xs))) = .ok xs ∧
      ZKTService.getUsers ⟨some 0⟩ (.ok (.objWithData none : ZkResult Nat)) = .ok [] ∧
      ZKTService.getUsers ⟨some 0⟩ (.ok (.objWithUsers none : ZkResult Nat)) = .ok [] ∧
      ZKTService.getUsers ⟨some 0⟩ (.ok (.nullish : ZkResult Nat)) = .ok [] ∧
      ZKTService.getUsers ⟨some 0⟩ (.ok (.objOther : ZkResult Nat)) = .ok [] ∧
      ZKTService.getAttendanceLogs ⟨some 0⟩ (.ok (.plainArray xs)) = .ok xs ∧
      ZKTService.getAttendanceLogs ⟨some 0⟩ (.ok (.objWithData (some xs))) = .ok xs ∧
      ZKTService.getAttendanceLogs ⟨some 0⟩ (.ok (.objWithUsers (some xs))) = .ok [] ∧
      ZKTService.getAttendanceLogs ⟨some 0⟩ (.ok (.objWithData none : ZkResult Nat)) = .ok [] ∧
      ZKTService.getAttendanceLogs ⟨some 0⟩ (.ok (.nullish : ZkResult Nat)) = .ok [] ∧
      ZKTService.getAttendanceLogs ⟨some 0⟩ (.ok (.objOther : ZkResult Nat)) = .ok [] :=
  fun _ => ⟨rfl, rfl, rfl, rfl, rfl, rfl, rfl, rfl, rfl, rfl, rfl, rfl, rfl⟩

/-- The device times out on the first call and would succeed on the second:
the scenario the retry contract is for. -/
def timeoutThenOk : Nat → Except String (ZkResult Nat) :=
  fun n => if n = 0 then .error "TIMEOUT" else .ok (.plainArray [1])

/-- C4: the route invokes getAttendanceLogs with an ostensible retry budget of
3, but the method declares no parameter, so against a device that times out
once and would succeed on the very next attempt the fetch performs exactly one
device call and fails with the raw timeout — no retry, no backoff, no
DeviceTimeoutError. -/
theorem fetchLogs_single_attempt_no_retry :
    fetchLogsAtRoute 3 ⟨some 0⟩ timeoutThenOk = (.error "TIMEOUT", 1) ∧
    timeoutThenOk 1 = .ok (.plainArray [1]) :=
  ⟨rfl, rfl⟩

/-! ## Claim theorems: mismatch repair frame (C10) -/

/-- C10: the mismatch-repair scan deletes only records of the current gym and
member; every record of another member or another gym survives the repair
untouched. -/
theorem repair_frame_other_members (gym memberId d : Int)
    (rows : List AttendanceRecord) (r : AttendanceRecord) (hr : r ∈ rows)
    (h : r.gymId ≠ gym ∨ r.memberId ≠ memberId) :
    r ∈ repairMismatches gym memberId d rows := by
  refine List.mem_filter.mpr ⟨hr, ?_⟩
  have hfalse : isMismatch gym memberId d r = false := by
    unfold isMismatch
    rcases h with h | h <;> simp [h]
  simp [hfalse]

/-- A record of gym 2 used to witness the repair frame. -/
def otherGymRecord : AttendanceRecord :=
  ⟨1, 2, 1, 0, "PRESENT", some 100, none, none, none⟩

/-- Witness for C10: a record of a different gym survives a repair pass. -/
theorem repair_frame_other_members_witness :
    otherGymRecord ∈ [otherGymRecord] ∧
    (otherGymRecord.gymId ≠ 1 ∨ otherGymRecord.memberId ≠ 1) ∧
    otherGymRecord ∈ repairMismatches 1 1 0 [otherGymRecord] :=
  ⟨List.mem_singleton.mpr rfl, Or.inl (by decide),
   repair_frame_other_members 1 1 0 [otherGymRecord] otherGymRecord
     (List.mem_singleton.mpr rfl) (Or.inl (by decide))⟩

/-! ## Claim theorems: unknown-kind inference (C6) -/

/-- A punch at 08:00 UTC of day zero with no type and no state field. -/
def log0800 : DeviceLog := { deviceUserId := some "7", recordTime := some 28800000 }

/-- A punch at 17:00 UTC of day zero with no type and no state field. -/
def log1700 : DeviceLog := { deviceUserId := some "7", recordTime := some 61200000 }

/-- The parsed 08:00 punch of the offline handler (kind unknown). -/
def punch0800 : ProcessedLog := ⟨"7", 1, 0, 28800000, none⟩

/-- The parsed 17:00 punch of the offline handler (kind unknown). -/
def punch1700 : ProcessedLog := ⟨"7", 1, 0, 61200000, none⟩

/-- C6 counterexample: when the attendance-logs handler encounters the two
typeless punches in reverse chronological order (17:00 first), its streaming
classifier marks both as check-ins, and the sync writes a record with check-in
08:00 and no check-out at all — not the claimed 08:00/17:00 session. -/
theorem get_unknown_kind_reversed_order_no_checkout :
    (runSyncGET [log1700, log0800] [("7", 1)] none none 1 none ⟨[], 1⟩).db.rows.map
        (fun r => (r.checkInTime, r.checkOutTime)) = [(some 28800000, none)] ∧
    ((some 28800000, (none : Option Time)) ≠ (some 28800000, some 61200000)) := by
  exact ⟨rfl, by decide⟩

/-- C6 amended: the offline aggregator resolves the two typeless 08:00/17:00
punches to check-in 08:00 and check-out 17:00 in either encounter order, and
the attendance-logs handler does so when the punches arrive in chronological
order; in reverse arrival order the attendance-logs handler instead classifies
both punches as check-ins (see the counterexample). -/
theorem unknown_kind_inference_eight_seventeen :
    offlineGroupBounds [punch0800, punch1700] = (some 28800000, some 61200000) ∧
    offlineGroupBounds [punch1700, punch0800] = (some 28800000, some 61200000) ∧
    (runSyncGET [log0800, log1700] [("7", 1)] none none 1 none ⟨[], 1⟩).db.rows.map
        (fun r => (r.checkInTime, r.checkOutTime)) = [(some 28800000, some 61200000)] :=
  ⟨rfl, rfl, rfl⟩

/-! ## Claim theorems: bound synthesis (C3) -/

/-- A lone explicit check-in punch at 08:00 UTC of day zero. -/
def loneCheckIn0800 : DeviceLog :=
  { deviceUserId := some "7", recordTime := some 28800000, type := some 0 }

/-- C3 counterexample: the attendance-logs sync performs no bound synthesis; a
group with a single check-in is written with a null check-out, so not every
written session has both bounds. -/
theorem attendance_logs_create_missing_bound :
    (runSyncGET [loneCheckIn0800] [("7", 1)] none none 1 none ⟨[], 1⟩).db.rows.map
        (fun r => (r.checkInTime, r.checkOutTime)) = [(some 28800000, none)] :=
  rfl

/-- C3 amended: bound synthesis happens in the offline sync endpoint only.
There, a lone check-in gets a check-out one hour later, a lone check-out a
check-in one hour earlier, a pair with check-out not strictly after check-in
has its check-out forced to check-in plus one hour, a proper pair is kept, an
empty pair produces no session — and every synthesized session has check-out
strictly after check-in. -/
theorem offline_bound_synthesis :
    (∀ ci : Time, finalizeBounds (some ci) none = some (ci, ci + hourMs)) ∧
    (∀ co : Time, finalizeBounds none (some co) = some (co - hourMs, co)) ∧
    finalizeBounds none none = (none : Option (Time × Time)) ∧
    (∀ ci co : Time, co ≤ ci → finalizeBounds (some ci) (some co) = some (ci, ci + hourMs)) ∧
    (∀ ci co : Time, ci < co → finalizeBounds (some ci) (some co) = some (ci, co)) ∧
    (∀ (a b : Option Time) (p : Time × Time), finalizeBounds a b = some p → p.1 < p.2) := by
  refine ⟨fun ci => rfl, fun co => rfl, rfl, ?_, ?_, ?_⟩
  · intro ci co h
    simp [finalizeBounds, h]
  · intro ci co h
    have h' : ¬ co ≤ ci := not_le.mpr h
    simp [finalizeBounds, h']
  · intro a b p hp
    rcases a with _ | ci <;> rcases b with _ | co <;> simp only [finalizeBounds] at hp
    · exact absurd hp (by simp)
    · obtain rfl : p = (co - hourMs, co) := by
        injection hp with h
        exact h.symm
      exact sub_lt_self co (by norm_num [hourMs])
    · obtain rfl : p = (ci, ci + hourMs) := by
        injection hp with h
        exact h.symm
      exact lt_add_of_pos_right ci (by norm_num [hourMs])
    · by_cases h : co ≤ ci
      · rw [if_pos h] at hp
        obtain rfl : p = (ci, ci + hourMs) := by
          injection hp with h2
          exact h2.symm
        exact lt_add_of_pos_right ci (by norm_num [hourMs])
      · rw [if_neg h] at hp
        obtain rfl : p = (ci, co) := by
          injection hp with h2
          exact h2.symm
        exact not_le.mp h

/-- Witness for the amended C3: a pair with check-out before check-in is
forced to a one-hour session. -/
theorem offline_bound_synthesis_witness :
    ((-5 : Int) ≤ 0) ∧ finalizeBounds (some 0) (some (-5)) = some (0, 0 + hourMs) :=
  ⟨by norm_num, offline_bound_synthesis.2.2.2.1 0 (-5) (by norm_num)⟩

/-! ## Claim theorems: monotone bounds (C1) -/

/-- The check-in column produced by the update document of the
attendance-logs upsert: a new earliest check-in replaces the stored one only
when the stored one is null or the new one is strictly earlier. -/
theorem mergeBounds_checkInTime (r : AttendanceRecord) (eci lco : Option Time)
    (duid : String) (serial : Option String) :
    (mergeBounds r eci lco duid serial).1.checkInTime =
      match eci, r.checkInTime with
      | some e, none => some e
      | some e, some c => if e < c then some e else some c
      | none, ci => ci := by
  unfold mergeBounds
  rcases eci with _ | e <;> rcases hci : r.checkInTime with _ | c <;>
    rcases lco with _ | f <;> rcases hco : r.checkOutTime with _ | g <;>
    simp [hci, hco] <;> split_ifs <;> simp_all

/-- The check-out column produced by the update document: a new latest
check-out replaces the stored one only when the stored one is null or the new
one is strictly later. -/
theorem mergeBounds_checkOutTime (r : AttendanceRecord) (eci lco : Option Time)
    (duid : String) (serial : Option String) :
    (mergeBounds r eci lco duid serial).1.checkOutTime =
      match lco, r.checkOutTime with
      | some f, none => some f
      | some f, some g => if g < f then some f else some g
      | none, co => co := by
  unfold mergeBounds
  rcases eci with _ | e <;> rcases hci : r.checkInTime with _ | c <;>
    rcases lco with _ | f <;> rcases hco : r.checkOutTime with _ | g <;>
    simp [hci, hco] <;> split_ifs <;> simp_all

/-- One attendance-logs upsert never moves a stored check-in later. -/
theorem mergeBounds_ci_le (r : AttendanceRecord) (eci lco : Option Time)
    (duid : String) (serial : Option String) (c : Time) (h : r.checkInTime = some c) :
    ∃ c', (mergeBounds r eci lco duid serial).1.checkInTime = some c' ∧ c' ≤ c := by
  rw [mergeBounds_checkInTime, h]
  rcases eci with _ | e
  · exact ⟨c, rfl, le_refl c⟩
  · by_cases hec : e < c
    · exact ⟨e, by simp [hec], le_of_lt hec⟩
    · exact ⟨c, by simp [hec], le_refl c⟩

/-- One attendance-logs upsert never moves a stored check-out earlier. -/
theorem mergeBounds_co_ge (r : AttendanceRecord) (eci lco : Option Time)
    (duid : String) (serial : Option String) (g : Time) (h : r.checkOutTime = some g) :
    ∃ g', (mergeBounds r eci lco duid serial).1.checkOutTime = some g' ∧ g ≤ g' := by
  rw [mergeBounds_checkOutTime, h]
  rcases lco with _ | f
  · exact ⟨g, rfl, le_refl g⟩
  · by_cases hgf : g < f
    · exact ⟨f, by simp [hgf], le_of_lt hgf⟩
    · exact ⟨g, by simp [hgf], le_refl g⟩

/-- Monotonicity of the attendance-logs upsert: stored bounds are replaced
exactly when strictly improved, and across any sequence of upserts the
check-in only moves earlier and the check-out only later. -/
def MergeMonoSpec (duid : String) (serial : Option String) (r : AttendanceRecord) : Prop :=
  (∀ (eci lco : Option Time) (c : Time), r.checkInTime = some c →
     ∃ c', (mergeBounds r eci lco duid serial).1.checkInTime = some c' ∧ c' ≤ c) ∧
  (∀ (eci lco : Option Time) (c e : Time), r.checkInTime = some c → eci = some e → ¬ e < c →
     (mergeBounds r eci lco duid serial).1.checkInTime = some c) ∧
  (∀ (eci lco : Option Time) (c e : Time), r.checkInTime = some c → eci = some e → e < c →
     (mergeBounds r eci lco duid serial).1.checkInTime = some e) ∧
  (∀ (eci lco : Option Time) (g : Time), r.checkOutTime = some g →
     ∃ g', (mergeBounds r eci lco duid serial).1.checkOutTime = some g' ∧ g ≤ g') ∧
  (∀ (eci lco : Option Time) (g f : Time), r.checkOutTime = some g → lco = some f → ¬ g < f →
     (mergeBounds r eci lco duid serial).1.checkOutTime = some g) ∧
  (∀ (eci lco : Option Time) (g f : Time), r.checkOutTime = some g → lco = some f → g < f →
     (mergeBounds r eci lco duid serial).1.checkOutTime = some f) ∧
  (∀ (sessions : List (Option Time × Option Time)) (c : Time), r.checkInTime = some c →
     ∃ c', (sessions.foldl (fun x p => (mergeBounds x p.1 p.2 duid serial).1) r).checkInTime = some c' ∧ c' ≤ c) ∧
  (∀ (sessions : List (Option Time × Option Time)) (g : Time), r.checkOutTime = some g →
     ∃ g', (sessions.foldl (fun x p => (mergeBounds x p.1 p.2 duid serial).1) r).checkOutTime = some g' ∧ g ≤ g')

/-- Across any number of attendance-logs upserts the stored check-in only
ever moves earlier. -/
theorem mergeFold_ci_le (duid : String) (serial : Option String) :
    ∀ (sessions : List (Option Time × Option Time)) (r : AttendanceRecord) (c : Time),
      r.checkInTime = some c →
      ∃ c', (sessions.foldl (fun x p => (mergeBounds x p.1 p.2 duid serial).1) r).checkInTime = some c' ∧ c' ≤ c := by
  intro sessions
  induction sessions with
  | nil => exact fun r c h => ⟨c, h, le_refl c⟩
  | cons p rest ih =>
    intro r c h
    obtain ⟨c1, h1, hle1⟩ := mergeBounds_ci_le r p.1 p.2 duid serial c h
    obtain ⟨c2, h2, hle2⟩ := ih _ c1 h1
    exact ⟨c2, h2, le_trans hle2 hle1⟩

/-- Across any number of attendance-logs upserts the stored check-out only
ever moves later. -/
theorem mergeFold_co_ge (duid : String) (serial : Option String) :
    ∀ (sessions : List (Option Time × Option Time)) (r : AttendanceRecord) (g : Time),
      r.checkOutTime = some g →
      ∃ g', (sessions.foldl (fun x p => (mergeBounds x p.1 p.2 duid serial).1) r).checkOutTime = some g' ∧ g ≤ g' := by
  intro sessions
  induction sessions with
  | nil => exact fun r g h => ⟨g, h, le_refl g⟩
  | cons p rest ih =>
    intro r g h
    obtain ⟨g1, h1, hle1⟩ := mergeBounds_co_ge r p.1 p.2 duid serial g h
    obtain ⟨g2, h2, hle2⟩ := ih _ g1 h1
    exact ⟨g2, h2, le_trans hle1 hle2⟩

/-- C1 amended: the attendance-logs (GET) sync upsert extends and never
shrinks stored bounds - the stored check-in is replaced exactly when the
session check-in is strictly earlier, the stored check-out exactly when the
session check-out is strictly later, hence bounds are monotone across any
number of such syncs.  The offline sync endpoint violates the claim (see the
counterexample). -/
theorem monotonic_bounds_get_sync (duid : String) (serial : Option String)
    (r : AttendanceRecord) : MergeMonoSpec duid serial r := by
  refine ⟨fun eci lco c h => mergeBounds_ci_le r eci lco duid serial c h,
          ?_, ?_,
          fun eci lco g h => mergeBounds_co_ge r eci lco duid serial g h,
          ?_, ?_,
          fun ss c h => mergeFold_ci_le duid serial ss r c h,
          fun ss g h => mergeFold_co_ge duid serial ss r g h⟩
  · intro eci lco c e h he hlt
    subst he
    rw [mergeBounds_checkInTime, h]
    simp [hlt]
  · intro eci lco c e h he hlt
    subst he
    rw [mergeBounds_checkInTime, h]
    simp [hlt]
  · intro eci lco g f h hf hlt
    subst hf
    rw [mergeBounds_checkOutTime, h]
    simp [hlt]
  · intro eci lco g f h hf hlt
    subst hf
    rw [mergeBounds_checkOutTime, h]
    simp [hlt]


/-- Witness for the amended C1 at a concrete record. -/
theorem monotonic_bounds_get_sync_witness :
    MergeMonoSpec "7" none ⟨1, 1, 1, 0, "PRESENT", some 100, some 200, none, none⟩ :=
  monotonic_bounds_get_sync "7" none ⟨1, 1, 1, 0, "PRESENT", some 100, some 200, none, none⟩

/-- A stored record whose session starts at the epoch and ends two hours
later. -/
def shrinkDb : DB := ⟨[⟨1, 1, 1, 0, "PRESENT", some 0, some 7200000, some "7", none⟩], 2⟩

/-- A later explicit check-in punch of the same member and day. -/
def laterCheckIn : DeviceLog :=
  { deviceUserId := some "7", recordTime := some 3600000, type := some 0 }

/-- C1 counterexample: the offline sync endpoint overwrites stored bounds
unconditionally - upserting a session whose check-in is strictly later than
the stored one REPLACES the stored check-in, moving it later, so the claimed
invariant over every sync upsert is false. -/
theorem offline_sync_shrinks_bounds :
    shrinkDb.rows.map AttendanceRecord.checkInTime = [some 0] ∧
    (runOfflineSync [laterCheckIn] [("7", 1)] 1 none shrinkDb).1.rows.map
        AttendanceRecord.checkInTime = [some 3600000] ∧
    ((0 : Time) < 3600000) :=
  ⟨rfl, rfl, by norm_num⟩

/-! ## Claim theorems: incremental idempotence (C2) -/

/-- A punch whose resolved timestamp is not strictly after the sync start
time is dropped by the date filter before grouping. -/
theorem processLogGET_skip (mappings : List (String × Int)) (s : Time)
    (end? : Option Time) (gs : List SyncGroup) (l : DeviceLog)
    (h : (resolveTime l).all (fun t => decide (t ≤ s)) = true) :
    processLogGET mappings (some s) end? gs l = gs := by
  unfold processLogGET
  cases hrt : resolveTime l with
  | none => rfl
  | some t =>
    have ht : t ≤ s := by
      rw [hrt] at h
      simpa using h
    simp [ht]

/-- C2: an incremental sync whose fetched punches all have timestamps not
strictly after the device lastSyncAt (as after a prior run advanced it)
leaves every AttendanceRecord unchanged and reports zero created, zero
updated and zero deleted records, because every punch is filtered out before
grouping. -/
theorem incremental_sync_second_run_noop (logs : List DeviceLog)
    (mappings : List (String × Int)) (end? : Option Time) (gym : Int)
    (serial : Option String) (db : DB) (s : Time)
    (h : logs.all (fun l => (resolveTime l).all (fun t => decide (t ≤ s))) = true) :
    runSyncGET logs mappings (some s) end? gym serial db = ⟨db, 0, 0, 0⟩ := by
  unfold runSyncGET
  have hg : logs.foldl (processLogGET mappings (some s) end?) [] = [] := by
    have hall := List.all_eq_true.mp h
    clear h
    induction logs with
    | nil => rfl
    | cons l rest ih =>
      rw [List.foldl_cons, processLogGET_skip mappings s end? [] l (hall l (List.mem_cons_self l rest))]
      exact ih (fun x hx => hall x (List.mem_cons_of_mem l hx))
  rw [hg]
  rfl

/-- A punch at instant 5, stale relative to a last sync at instant 10. -/
def stalePunch : DeviceLog := { deviceUserId := some "7", recordTime := some 5 }

/-- Witness for C2: a second run over one stale punch changes nothing. -/
theorem incremental_sync_second_run_noop_witness :
    ([stalePunch].all (fun l => (resolveTime l).all (fun t => decide (t ≤ (10 : Time))))) = true ∧
    runSyncGET [stalePunch] [("7", 1)] (some 10) none 1 none ⟨[], 1⟩ = ⟨⟨[], 1⟩, 0, 0, 0⟩ :=
  ⟨by decide,
   incremental_sync_second_run_noop [stalePunch] [("7", 1)] none 1 none ⟨[], 1⟩ 10 (by decide)⟩

/-! ## Claim theorems: mismatch repair (C5) -/

/-- The attendance-logs update document never changes the primary key or the
(gym, member, date) key of the row it updates. -/
theorem mergeBounds_key (r : AttendanceRecord) (eci lco : Option Time)
    (duid : String) (serial : Option String) :
    (mergeBounds r eci lco duid serial).1.id = r.id ∧
    (mergeBounds r eci lco duid serial).1.gymId = r.gymId ∧
    (mergeBounds r eci lco duid serial).1.memberId = r.memberId ∧
    (mergeBounds r eci lco duid serial).1.date = r.date := by
  unfold mergeBounds
  dsimp only
  split <;> exact ⟨rfl, rfl, rfl, rfl⟩

/-- The mismatch-repair postcondition of one group write: every mismatched
record of the member is gone (no surviving row carries its primary key), and
a row keyed by the gym, the member and the target day exists afterwards. -/
def RepairSpec (gym : Int) (serial : Option String) (g : SyncGroup)
    (acc : SyncOut) (d : Int) : Prop :=
  (∀ r ∈ acc.db.rows, isMismatch gym g.memberId d r = true →
     ∀ r' ∈ (writeGroup gym serial acc g).db.rows, r'.id ≠ r.id) ∧
  (∃ r' ∈ (writeGroup gym serial acc g).db.rows,
     r'.gymId = gym ∧ r'.memberId = g.memberId ∧ r'.date = d)

/-- The rows produced by one group write take one of three shapes: the
repaired table plus a freshly created record, the repaired table with the
found record merged in place, or the repaired table untouched. -/
theorem writeGroup_rows_shape (gym : Int) (serial : Option String)
    (acc : SyncOut) (g : SyncGroup) (ad : Time)
    (had : (listMin g.checkIns <|> listMax g.checkOuts) = some ad) :
    ((writeGroup gym serial acc g).db.rows =
        repairMismatches gym g.memberId (utcDay ad) acc.db.rows ++
          [⟨acc.db.nextId, gym, g.memberId, utcDay ad, "PRESENT",
            listMin g.checkIns, listMax g.checkOuts, some g.deviceUserId, serial⟩] ∧
      (repairMismatches gym g.memberId (utcDay ad) acc.db.rows).find?
        (fun r => r.gymId == gym && r.memberId == g.memberId && r.date == utcDay ad) = none)
    ∨ (∃ r0, (repairMismatches gym g.memberId (utcDay ad) acc.db.rows).find?
          (fun r => r.gymId == gym && r.memberId == g.memberId && r.date == utcDay ad) = some r0 ∧
        ((writeGroup gym serial acc g).db.rows =
            (repairMismatches gym g.memberId (utcDay ad) acc.db.rows).map
              (fun x => if x.id = r0.id then
                 (mergeBounds r0 (listMin g.checkIns) (listMax g.checkOuts) g.deviceUserId serial).1
               else x) ∨
         (writeGroup gym serial acc g).db.rows =
            repairMismatches gym g.memberId (utcDay ad) acc.db.rows)) := by
  have hne : (g.checkIns.isEmpty && g.checkOuts.isEmpty) = false := by
    by_contra hcon
    have hb : (g.checkIns.isEmpty && g.checkOuts.isEmpty) = true := by
      revert hcon
      cases g.checkIns.isEmpty && g.checkOuts.isEmpty <;> simp
    obtain ⟨h1, h2⟩ := Bool.and_eq_true_iff.mp hb
    rw [List.isEmpty_iff.mp h1, List.isEmpty_iff.mp h2] at had
    simp [listMin, listMax] at had
  unfold writeGroup
  rw [hne]
  simp only [Bool.false_eq_true, if_false]
  rw [had]
  dsimp only
  cases hfind : (repairMismatches gym g.memberId (utcDay ad) acc.db.rows).find?
      (fun r => r.gymId == gym && r.memberId == g.memberId && r.date == utcDay ad) with
  | none =>
    left
    exact ⟨rfl, rfl⟩
  | some r0 =>
    right
    refine ⟨r0, rfl, ?_⟩
    by_cases hupd : (mergeBounds r0 (listMin g.checkIns) (listMax g.checkOuts) g.deviceUserId serial).2 = true
    · left
      simp [hupd]
    · right
      simp [hupd]

/-- C5: before upserting a finalized session, every existing record of the
same member whose non-null check-in (or, failing that, check-out) falls on
the session target UTC day while its stored date differs is deleted, and the
session is then written under the correct date. -/
theorem mismatch_repair_correct (gym : Int) (serial : Option String)
    (g : SyncGroup) (acc : SyncOut) (d : Int)
    (hwf : acc.db.WF) (hd : targetDay g = some d) :
    RepairSpec gym serial g acc d := by
  obtain ⟨ad, had, rfl⟩ : ∃ ad, (listMin g.checkIns <|> listMax g.checkOuts) = some ad ∧ utcDay ad = d := by
    unfold targetDay at hd
    cases hor : (listMin g.checkIns <|> listMax g.checkOuts) with
    | none => rw [hor] at hd; simp at hd
    | some ad => rw [hor] at hd; simp at hd; exact ⟨ad, rfl, hd⟩
  have hinj := List.inj_on_of_nodup_map hwf.2
  have hrepair_sub : ∀ x ∈ repairMismatches gym g.memberId (utcDay ad) acc.db.rows,
      x ∈ acc.db.rows ∧ isMismatch gym g.memberId (utcDay ad) x = false := by
    intro x hx
    obtain ⟨hmem, hcond⟩ := List.mem_filter.mp hx
    refine ⟨hmem, ?_⟩
    simpa using hcond
  constructor
  · -- every mismatched record is gone
    intro r hr hmis r' hr' heq
    rcases writeGroup_rows_shape gym serial acc g ad had with
      ⟨hrows, _⟩ | ⟨r0, hfind, hrows | hrows⟩
    · rw [hrows] at hr'
      rcases List.mem_append.mp hr' with hmem | hmem
      · obtain ⟨hmemrows, hfalse⟩ := hrepair_sub r' hmem
        have : r' = r := hinj hmemrows hr heq
        rw [this] at hfalse
        rw [hmis] at hfalse
        exact Bool.true_eq_false.mp hfalse
      · have : r' = ⟨acc.db.nextId, gym, g.memberId, utcDay ad, "PRESENT",
            listMin g.checkIns, listMax g.checkOuts, some g.deviceUserId, serial⟩ :=
          List.mem_singleton.mp hmem
        have hid : r'.id = acc.db.nextId := by rw [this]
        have := hwf.1 r hr
        omega
    · rw [hrows] at hr'
      obtain ⟨x, hxmem, hxr'⟩ := List.mem_map.mp hr'
      have hxid : r'.id = x.id := by
        subst hxr'
        by_cases hx0 : x.id = r0.id
        · rw [if_pos hx0,
              (mergeBounds_key r0 (listMin g.checkIns) (listMax g.checkOuts) g.deviceUserId serial).1]
          exact hx0.symm
        · rw [if_neg hx0]
      obtain ⟨hmemrows, hfalse⟩ := hrepair_sub x hxmem
      have : x = r := hinj hmemrows hr (hxid ▸ heq)
      rw [this] at hfalse
      rw [hmis] at hfalse
      exact Bool.true_eq_false.mp hfalse
    · rw [hrows] at hr'
      obtain ⟨hmemrows, hfalse⟩ := hrepair_sub r' hr'
      have : r' = r := hinj hmemrows hr heq
      rw [this] at hfalse
      rw [hmis] at hfalse
      exact Bool.true_eq_false.mp hfalse
  · -- a record keyed (gym, member, target day) exists afterwards
    rcases writeGroup_rows_shape gym serial acc g ad had with
      ⟨hrows, _⟩ | ⟨r0, hfind, hrows | hrows⟩
    · refine ⟨⟨acc.db.nextId, gym, g.memberId, utcDay ad, "PRESENT",
          listMin g.checkIns, listMax g.checkOuts, some g.deviceUserId, serial⟩, ?_, rfl, rfl, rfl⟩
      rw [hrows]
      exact List.mem_append.mpr (Or.inr (List.mem_singleton.mpr rfl))
    · have hp := List.find?_some hfind
      have hkey : r0.gymId = gym ∧ r0.memberId = g.memberId ∧ r0.date = utcDay ad := by
        simp only [Bool.and_eq_true, beq_iff_eq] at hp
        exact ⟨hp.1.1, hp.1.2, hp.2⟩
      have hmem0 := List.mem_of_find?_eq_some hfind
      refine ⟨(mergeBounds r0 (listMin g.checkIns) (listMax g.checkOuts) g.deviceUserId serial).1, ?_, ?_, ?_, ?_⟩
      · rw [hrows]
        exact List.mem_map.mpr ⟨r0, hmem0, by simp⟩
      · rw [(mergeBounds_key r0 (listMin g.checkIns) (listMax g.checkOuts) g.deviceUserId serial).2.1]
        exact hkey.1
      · rw [(mergeBounds_key r0 (listMin g.checkIns) (listMax g.checkOuts) g.deviceUserId serial).2.2.1]
        exact hkey.2.1
      · rw [(mergeBounds_key r0 (listMin g.checkIns) (listMax g.checkOuts) g.deviceUserId serial).2.2.2]
        exact hkey.2.2
    · have hp := List.find?_some hfind
      have hkey : r0.gymId = gym ∧ r0.memberId = g.memberId ∧ r0.date = utcDay ad := by
        simp only [Bool.and_eq_true, beq_iff_eq] at hp
        exact ⟨hp.1.1, hp.1.2, hp.2⟩
      have hmem0 := List.mem_of_find?_eq_some hfind
      refine ⟨r0, ?_, hkey.1, hkey.2.1, hkey.2.2⟩
      rw [hrows]
      exact hmem0

/-- A session group of member 1 whose check-in is at 08:00 UTC of day zero. -/
def repairGroup : SyncGroup := ⟨1, 0, [28800000], [], "7"⟩

/-- A sync state holding one stale record stored under day 1 although its
check-in falls on day 0. -/
def repairAcc : SyncOut :=
  ⟨⟨[⟨1, 1, 1, 1, "PRESENT", some 28800000, none, some "7", none⟩], 2⟩, 0, 0, 0⟩

/-- Witness for C5: the stale record stored under the wrong day is deleted
and a correctly dated day-0 record appears. -/
theorem mismatch_repair_correct_witness :
    repairAcc.db.WF ∧ targetDay repairGroup = some 0 ∧
    RepairSpec 1 none repairGroup repairAcc 0 :=
  ⟨by decide, by decide,
   mismatch_repair_correct 1 none repairGroup repairAcc 0 (by decide) (by decide)⟩

/-! ## Claim theorems: incomplete-session closer (C7) -/

/-- Unpacking the closer query condition. -/
theorem closeCond_decompose (today gym : Int) (r : AttendanceRecord)
    (h : closeCond today gym r = true) :
    r.gymId = gym ∧ (∃ c, r.checkInTime = some c) ∧ r.checkOutTime = none ∧ r.date < today := by
  unfold closeCond at h
  simp only [Bool.and_eq_true, beq_iff_eq, decide_eq_true_eq, Option.isSome_iff_exists] at h
  exact ⟨h.1.1.1, h.1.1.2, h.1.2, h.2⟩

/-- The per-record update loop of the closer, run over the fetched incomplete
records, acts on the table as the pointwise closure of exactly the rows whose
primary key occurs in the fetched set. -/
theorem closer_fold (today gym : Int) :
    ∀ (todo L : List AttendanceRecord),
      (L.map AttendanceRecord.id).Nodup →
      (∀ r ∈ todo, r ∈ L ∧ closeCond today gym r = true) →
      (todo.map AttendanceRecord.id).Nodup →
      todo.foldl (fun rows r =>
        match r.checkInTime with
        | some c => updateCheckOutById rows r.id (some (c + hourMs))
        | none => rows) L
      = L.map (fun x => if (todo.map AttendanceRecord.id).contains x.id
          then closeRecord today gym x else x) := by
  intro todo
  induction todo with
  | nil =>
    intro L _ _ _
    simp
  | cons r rest ih =>
    intro L hLnodup hsub htodonodup
    obtain ⟨hrL, hrcond⟩ := hsub r (List.mem_cons_self r rest)
    obtain ⟨hgym, ⟨c, hc⟩, hcout, hdate⟩ := closeCond_decompose today gym r hrcond
    rw [List.map_cons, List.nodup_cons] at htodonodup
    obtain ⟨hrid_not, hrestnodup⟩ := htodonodup
    set u : AttendanceRecord → AttendanceRecord :=
      fun x => if x.id = r.id then { x with checkOutTime := some (c + hourMs) } else x with hu
    have hid_pres : ∀ x, (u x).id = x.id := by
      intro x
      rw [hu]
      by_cases hx : x.id = r.id <;> simp [hx]
    have hmapid : (L.map u).map AttendanceRecord.id = L.map AttendanceRecord.id := by
      rw [List.map_map]
      exact List.map_congr_left (fun a _ => hid_pres a)
    have hLnodup' : ((L.map u).map AttendanceRecord.id).Nodup := by
      rw [hmapid]; exact hLnodup
    have hinj := List.inj_on_of_nodup_map hLnodup
    have hsub' : ∀ x ∈ rest, x ∈ L.map u ∧ closeCond today gym x = true := by
      intro x hx
      obtain ⟨hxL, hxcond⟩ := hsub x (List.mem_cons_of_mem r hx)
      have hxid : x.id ≠ r.id := by
        intro hxe
        exact hrid_not (hxe ▸ List.mem_map_of_mem AttendanceRecord.id hx)
      refine ⟨?_, hxcond⟩
      have hux : u x = x := by rw [hu]; simp [hxid]
      exact hux ▸ List.mem_map_of_mem u hxL
    have hstep : (match r.checkInTime with
        | some c => updateCheckOutById L r.id (some (c + hourMs))
        | none => L) = L.map u := by
      rw [hc]
      rfl
    rw [List.foldl_cons, hstep, ih (L.map u) hLnodup' hsub' hrestnodup, List.map_map]
    refine List.map_congr_left ?_
    intro x hxL
    by_cases hx : x.id = r.id
    · have hxr : x = r := hinj hxL hrL hx
      have hcond_x : closeCond today gym x = true := by rw [hxr]; exact hrcond
      have hc_x : x.checkInTime = some c := by rw [hxr]; exact hc
      have hcontains_rest : ((rest.map AttendanceRecord.id).contains (u x).id) = false := by
        rw [hid_pres x, hx]
        simpa using hrid_not
      have hcontains_full : ((r.id :: rest.map AttendanceRecord.id).contains x.id) = true := by
        simp [hx]
      simp only [Function.comp_apply, List.map_cons, hcontains_rest, hcontains_full,
        Bool.false_eq_true, if_false, if_true]
      have hux : u x = { x with checkOutTime := some (c + hourMs) } := by
        rw [hu]; simp [hx]
      have hclose : closeRecord today gym x = { x with checkOutTime := some (c + hourMs) } := by
        unfold closeRecord
        rw [if_pos hcond_x, hc_x]
      rw [hux, hclose]
    · have hux : u x = x := by rw [hu]; simp [hx]
      simp only [Function.comp_apply, List.map_cons, hux, List.contains_cons]
      have : (x.id == r.id) = false := by simp [hx]
      rw [this]
      simp

/-- The closer postcondition: the pass maps every row through closeRecord,
which sets check-out to check-in plus one hour on exactly the rows of this gym
with a non-null check-in, a null check-out and a date strictly before today,
and leaves every other row (in particular any row dated today) untouched. -/
def CloserSpec (today gym : Int) (db : DB) : Prop :=
  (autoCheckoutIncompleteRecords today gym db).1.rows = db.rows.map (closeRecord today gym) ∧
  (autoCheckoutIncompleteRecords today gym db).1.nextId = db.nextId ∧
  (∀ (r : AttendanceRecord) (c : Time), r.gymId = gym → r.checkInTime = some c →
     r.checkOutTime = none → r.date < today →
     closeRecord today gym r = { r with checkOutTime := some (c + hourMs) }) ∧
  (∀ r : AttendanceRecord, ¬ r.date < today → closeRecord today gym r = r) ∧
  (∀ r : AttendanceRecord, r.checkOutTime ≠ none → closeRecord today gym r = r) ∧
  (∀ r : AttendanceRecord, r.checkInTime = none → closeRecord today gym r = r) ∧
  (∀ r : AttendanceRecord, r.gymId ≠ gym → closeRecord today gym r = r)

/-- C7: the incomplete-session closer sets check-out to check-in plus one
hour for exactly the records of the gym with non-null check-in, null
check-out and date strictly before today; records dated today (or lacking the
condition in any other way) are untouched. -/
theorem auto_checkout_closer (today gym : Int) (db : DB) (hwf : db.WF) :
    CloserSpec today gym db := by
  refine ⟨?_, rfl, ?_, ?_, ?_, ?_, ?_⟩
  · -- the pass closes exactly the incomplete past records
    show (autoCheckoutIncompleteRecords today gym db).1.rows = _
    unfold autoCheckoutIncompleteRecords
    dsimp only
    have hinj := List.inj_on_of_nodup_map hwf.2
    have hfiltersub : ∀ r ∈ db.rows.filter (closeCond today gym),
        r ∈ db.rows ∧ closeCond today gym r = true := fun r hr => List.mem_filter.mp hr
    have hfnodup : ((db.rows.filter (closeCond today gym)).map AttendanceRecord.id).Nodup :=
      ((List.filter_sublist db.rows).map AttendanceRecord.id).nodup hwf.2
    rw [closer_fold today gym (db.rows.filter (closeCond today gym)) db.rows hwf.2 hfiltersub hfnodup]
    refine List.map_congr_left ?_
    intro x hx
    by_cases hcx : closeCond today gym x = true
    · have : (((db.rows.filter (closeCond today gym)).map AttendanceRecord.id).contains x.id) = true := by
        have : x ∈ db.rows.filter (closeCond today gym) := List.mem_filter.mpr ⟨hx, hcx⟩
        simpa using List.mem_map_of_mem AttendanceRecord.id this
      rw [this]
      simp
    · have hnc : (((db.rows.filter (closeCond today gym)).map AttendanceRecord.id).contains x.id) = false := by
        refine (Bool.eq_false_iff).mpr ?_
        intro habs
        have hmem : x.id ∈ (db.rows.filter (closeCond today gym)).map AttendanceRecord.id := by
          simpa using habs
        obtain ⟨y, hy, hyid⟩ := List.mem_map.mp hmem
        obtain ⟨hyrows, hycond⟩ := List.mem_filter.mp hy
        have : y = x := hinj hyrows hx hyid
        rw [this] at hycond
        exact hcx hycond
      rw [hnc]
      simp only [Bool.false_eq_true, if_false]
      unfold closeRecord
      rw [if_neg (by simpa using hcx)]
  · intro r c h1 h2 h3 h4
    have hcond : closeCond today gym r = true := by
      unfold closeCond
      simp [h1, h2, h3, h4]
    unfold closeRecord
    rw [if_pos hcond, h2]
  · intro r h
    unfold closeRecord closeCond
    rw [if_neg]
    simp only [Bool.and_eq_true, decide_eq_true_eq]
    tauto
  · intro r h
    unfold closeRecord closeCond
    rw [if_neg]
    simp only [Bool.and_eq_true, beq_iff_eq]
    tauto
  · intro r h
    unfold closeRecord closeCond
    rw [if_neg]
    simp only [Bool.and_eq_true, Option.isSome_iff_exists]
    intro habs
    rw [h] at habs
    rcases habs.1.1.2 with ⟨c, hc⟩
    cases hc
  · intro r h
    unfold closeRecord closeCond
    rw [if_neg]
    simp only [Bool.and_eq_true, beq_iff_eq]
    tauto

/-- Two incomplete records: one of yesterday (closable), one of today. -/
def closerDb : DB :=
  ⟨[⟨1, 1, 1, 0, "PRESENT", some 100, none, some "7", none⟩,
    ⟨2, 1, 2, 1, "PRESENT", some 200, none, none, none⟩], 3⟩

/-- Witness for C7 with today = 1: the day-0 record is closed, the day-1
record is untouched. -/
theorem auto_checkout_closer_witness : closerDb.WF ∧ CloserSpec 1 1 closerDb :=
  ⟨by decide, auto_checkout_closer 1 1 closerDb (by decide)⟩
